import Mathlib

/-!
# go-rest-example: the request handlers of `main.go`

A shallow embedding of the five HTTP handlers of `src/main.go`
(`handleGetAllUsers`, `handleGetUser`, `handleUpdateUser`, `handleDeleteUser`,
`handleCreateUser`) together with the library calls they depend on
(`strconv.ParseInt`, the `int32` conversion, `json.Marshal` of the response
types), followed by theorems about them.

The store (`users.Queries`, package `main/users`) is not part of `main.go`.
The handlers are therefore written over an arbitrary implementation of its six
operations (`Queries σ`), and every store call a handler makes is recorded in
the order it is made. Statements about what the store holds before and after
a request are made over `memQueries`, the store operations as their contract
describes them.
-/

namespace GoRest

/-! ## Data model (main.go, lines 22-37, and the rows of package `users`) -/

/-- The Go type `users.UserType`, a string type: the conversions
`string(user.UserType)` and `users.UserType(input.UserType)` keep the text. -/
abbrev UserType := String

/-- A row of the store, `users.UserAccount`. `ID` is an `int32` in Go. -/
structure UserAccount where
  ID : Int
  Name : String
  Email : String
  PhoneNumber : String
  UserType : UserType
  Address : String
  deriving DecidableEq, Repr

/-- The request body type `UserInput` (main.go, lines 22-28). -/
structure UserInput where
  Name : String
  Email : String
  PhoneNumber : String
  UserType : String
  Address : String
  deriving DecidableEq, Repr

/-- The response body type `UserResponse` (main.go, lines 30-37). -/
structure UserResponse where
  ID : Int
  Name : String
  Email : String
  PhoneNumber : String
  UserType : String
  Address : String
  deriving DecidableEq, Repr

/-- The argument of the store's insert, `users.CreateUserParams`. -/
structure CreateUserParams where
  Name : String
  Email : String
  PhoneNumber : String
  UserType : UserType
  Address : String
  deriving DecidableEq, Repr

/-- The argument of the store's update, `users.UpdateUserParams`. -/
structure UpdateUserParams where
  ID : Int
  Name : String
  Email : String
  PhoneNumber : String
  UserType : UserType
  Address : String
  deriving DecidableEq, Repr

/-! ## Go values used by the handlers -/

/-- A Go slice as far as the handlers can tell slices apart: the nil slice, or
a non-nil slice with its elements (possibly none). -/
inductive GoSlice (α : Type) where
  | nil
  | mk (elems : List α)
  deriving DecidableEq, Repr

/-- The elements a `for ... range` loop visits. -/
def GoSlice.toList {α : Type} : GoSlice α → List α
  | .nil => []
  | .mk xs => xs

/-- The Go builtin `append(s, x)`: the result is never nil. -/
def GoSlice.append {α : Type} (s : GoSlice α) (x : α) : GoSlice α :=
  .mk (s.toList ++ [x])

/-- The test `s == nil`. -/
def GoSlice.isNil {α : Type} : GoSlice α → Bool
  | .nil => true
  | .mk _ => false

deriving instance DecidableEq for Except

/-- The two error values `strconv` wraps in a `*NumError`. -/
inductive NumErrKind where
  | ErrSyntax
  | ErrRange
  deriving DecidableEq, Repr

/-- The Go `error` values the handlers meet: `sql.ErrNoRows`, the
`*strconv.NumError` of a failed `ParseInt`, or any other error, which is known
by the text its `Error()` method returns. -/
inductive GoError where
  | ErrNoRows
  | NumError (Func : String) (Num : String) (Err : NumErrKind)
  | other (text : String)
  deriving DecidableEq, Repr

/-! ## strconv.ParseInt and the int32 conversion -/

/-- The helper `lower(c)` of `strconv`: `c | ('x' - 'X')`. -/
def lower (c : Nat) : Nat := c ||| 0x20

/-- The `switch` at the top of the loop of `strconv.ParseUint` for a non-zero
base: the value of the digit `c`, or `none` in the `default` case. -/
def digitVal (c : Char) : Option Nat :=
  if 48 ≤ c.toNat ∧ c.toNat ≤ 57 then some (c.toNat - 48)
  else if 97 ≤ lower c.toNat ∧ lower c.toNat ≤ 122 then some (lower c.toNat - 97 + 10)
  else none

/-- The loop of `strconv.ParseUint` over the characters still to read, with
the `uint64` accumulator `n` (arithmetic modulo `2^64`). The result is the
pair `(value, err)` that `ParseUint` returns, `none` standing for a nil error. -/
def parseUintLoop (base maxVal cutoff : Nat) : List Char → Nat → Nat × Option NumErrKind
  | [], n => (n, none)
  | c :: cs, n =>
    match digitVal c with
    | none => (0, some .ErrSyntax)
    | some d =>
      if base ≤ d then (0, some .ErrSyntax)
      else if cutoff ≤ n then (maxVal, some .ErrRange)
      else
        let m := (n * base) % 2 ^ 64
        let n1 := (m + d) % 2 ^ 64
        if n1 < m ∨ maxVal < n1 then (maxVal, some .ErrRange)
        else parseUintLoop base maxVal cutoff cs n1

/-- The call `strconv.ParseUint(s, 10, bitSize)` for `1 ≤ bitSize ≤ 64`, on
the characters of `s`: the empty text is a syntax error,
`cutoff = maxUint64/10 + 1` and `maxVal = 1<<bitSize - 1`. A Go string is read
here as its list of characters; a character outside ASCII is in the `default`
case of the digit switch, like each of its bytes. -/
def ParseUint (s : List Char) (bitSize : Nat) : Nat × Option NumErrKind :=
  if s = [] then (0, some .ErrSyntax)
  else parseUintLoop 10 (2 ^ bitSize - 1) ((2 ^ 64 - 1) / 10 + 1) s 0

/-- The call `strconv.ParseInt(s, 10, bitSize)` for `1 ≤ bitSize ≤ 64`: the
sign is picked off, the rest goes through `ParseUint`, an error other than
`ErrRange` is returned at once, and the magnitude is checked against
`cutoff = 1 << (bitSize-1)`. The result is the `int64` value when the error is
nil and the `*NumError` otherwise (a range error comes with a clamped value,
which no handler reads). -/
def ParseInt (s : String) (bitSize : Nat) : Except GoError Int :=
  match s.toList with
  | [] => .error (.NumError "ParseInt" s .ErrSyntax)
  | c :: cs =>
    let neg : Bool := c = '-'
    let rest := if c = '+' ∨ c = '-' then cs else c :: cs
    let (un, err) := ParseUint rest bitSize
    if err = some .ErrSyntax then .error (.NumError "ParseInt" s .ErrSyntax)
    else
      let cutoff := 2 ^ (bitSize - 1)
      if neg = false ∧ cutoff ≤ un then .error (.NumError "ParseInt" s .ErrRange)
      else if neg = true ∧ cutoff < un then .error (.NumError "ParseInt" s .ErrRange)
      else if neg then .ok (-(un : Int)) else .ok (un : Int)

/-- The Go conversion `int32(x)` of an `int64`: the low 32 bits, read as a
signed number. -/
def int32 (x : Int) : Int := (x + 2 ^ 31) % 2 ^ 32 - 2 ^ 31

/-! ## json.Marshal of the response types -/

/-- The JSON value of a field of the response types: a number or a string. -/
inductive JsonValue where
  | num (n : Int)
  | str (s : String)
  deriving DecidableEq, Repr

/-- A JSON object: its keys with their values, in order. -/
abbrev JsonObject := List (String × JsonValue)

/-- A JSON document, as far as `json.Marshal` produces one for the response
types: `null`, an object, or an array of objects. -/
inductive Json where
  | null
  | obj (fields : JsonObject)
  | arr (items : List JsonObject)
  deriving DecidableEq, Repr

/-- The object `json.Marshal` writes for a `UserResponse`: the six keys named
by the field tags, in the order of the fields. -/
def UserResponse.fields (u : UserResponse) : JsonObject :=
  [("id", .num u.ID), ("name", .str u.Name), ("email", .str u.Email),
    ("phone_number", .str u.PhoneNumber), ("user_type", .str u.UserType),
    ("address", .str u.Address)]

/-- The call `json.Marshal(userResponse)`. It cannot fail for a record of an
`int32` and five strings, so the handlers never take the error branch that
follows it. -/
def marshalUserResponse (u : UserResponse) : Json := .obj u.fields

/-- The call `json.Marshal(userResponseArray)` on a `[]UserResponse`: a nil
slice is encoded as `null`, any other slice as an array of its elements. -/
def marshalUserResponses : GoSlice UserResponse → Json
  | .nil => .null
  | .mk us => .arr (us.map UserResponse.fields)

/-! ## Requests, responses and the store interface -/

/-- The status codes of `net/http` that the handlers use. -/
abbrev StatusOK : Nat := 200
abbrev StatusCreated : Nat := 201
abbrev StatusNoContent : Nat := 204
abbrev StatusBadRequest : Nat := 400
abbrev StatusNotFound : Nat := 404
abbrev StatusInternalServerError : Nat := 500

/-- The constant `http.MethodPost`. -/
abbrev MethodPost : String := "POST"

/-- What a handler reads of its `*http.Request`: the method, the path value
`r.PathValue("id")`, and the outcome of `json.NewDecoder(r.Body).Decode(&input)`
(the decoded `UserInput`, or the decoder's error). -/
structure Request where
  Method : String
  PathId : String
  Body : Except GoError UserInput
  deriving DecidableEq

/-- The text argument of `http.Error`: a literal of the source, or the
`Error()` text of an error value. -/
inductive Message where
  | lit (text : String)
  | ofError (err : GoError)
  deriving DecidableEq, Repr

/-- What a handler writes to its `http.ResponseWriter`, one constructor for
each shape in `main.go`. -/
inductive Response where
  /-- The call `http.Error(w, msg, code)`: status `code`, the message as a line of plain text. -/
  | error (msg : Message) (code : Nat)
  /-- The call `http.NotFound(w, r)`. -/
  | notFound
  /-- The header `Content-Type: application/json`, `WriteHeader(code)`, then `Write(body)`. -/
  | json (code : Nat) (body : Json)
  /-- The call `WriteHeader(code)` alone: a status and nothing written after it. -/
  | header (code : Nat)
  deriving DecidableEq, Repr

/-- The status code of a response. -/
def Response.status : Response → Nat
  | .error _ code => code
  | .notFound => StatusNotFound
  | .json code _ => code
  | .header code => code

/-- Whether the handler writes a body: everything but a bare `WriteHeader`
does. -/
def Response.hasBody : Response → Bool
  | .header _ => false
  | _ => true

/-- The JSON document written with `w.Write`, when there is one. -/
def Response.jsonBody : Response → Option Json
  | .json _ body => some body
  | _ => none

/-- The operations of `users.Queries` the handlers call, over a store state
`σ`. A lookup reads the state; insert, update and delete also return the next
state. A Go result `(value, err)` with `err != nil` is `.error err`; an update
or delete returns only an error, `none` when it is nil. -/
structure Queries (σ : Type) where
  ListUsers : σ → Except GoError (GoSlice UserAccount)
  GetUserById : Int → σ → Except GoError UserAccount
  GetUserByEmail : String → σ → Except GoError UserAccount
  CreateUser : CreateUserParams → σ → Except GoError UserAccount × σ
  UpdateUser : UpdateUserParams → σ → Option GoError × σ
  DeleteUser : Int → σ → Option GoError × σ

/-- One call of a store operation, with its argument. -/
inductive StoreCall where
  | ListUsers
  | GetUserById (id : Int)
  | GetUserByEmail (email : String)
  | CreateUser (arg : CreateUserParams)
  | UpdateUser (arg : UpdateUserParams)
  | DeleteUser (id : Int)
  deriving DecidableEq, Repr

/-- The result of running a handler: the response written, the store state
afterwards, and the store calls made, first call first. -/
structure Outcome (σ : Type) where
  resp : Response
  store : σ
  calls : List StoreCall
  deriving DecidableEq, Repr

/-! ## The handlers (main.go, lines 72-268) -/

/-- The field-by-field copy of a row into a `UserResponse`, written out in
`handleGetAllUsers`, `handleGetUser` and `handleCreateUser`. -/
def toUserResponse (user : UserAccount) : UserResponse :=
  { ID := user.ID, Name := user.Name, Email := user.Email,
    PhoneNumber := user.PhoneNumber, UserType := user.UserType, Address := user.Address }

/-- The handler `handleGetAllUsers` (main.go, lines 72-108). -/
def handleGetAllUsers {σ : Type} (q : Queries σ) (_r : Request) (s : σ) : Outcome σ :=
  match q.ListUsers s with
  | .error err => ⟨.error (.ofError err) StatusInternalServerError, s, [.ListUsers]⟩
  | .ok users =>
    -- var userResponseArray []UserResponse; for _, user := range users { append }
    let userResponseArray : GoSlice UserResponse :=
      users.toList.foldl (fun acc user => acc.append (toUserResponse user)) .nil
    let userResponseArray :=
      if userResponseArray.isNil then GoSlice.mk [] else userResponseArray
    ⟨.json StatusOK (marshalUserResponses userResponseArray), s, [.ListUsers]⟩

/-- The handler `handleGetUser` (main.go, lines 110-155). -/
def handleGetUser {σ : Type} (q : Queries σ) (r : Request) (s : σ) : Outcome σ :=
  let identifier := r.PathId
  let (res, call) :=
    match ParseInt identifier 32 with
    | .ok id => (q.GetUserById (int32 id) s, StoreCall.GetUserById (int32 id))
    | .error _ => (q.GetUserByEmail identifier s, StoreCall.GetUserByEmail identifier)
  match res with
  | .error err =>
    if err = GoError.ErrNoRows then
      ⟨.error (.lit "User not found") StatusNotFound, s, [call]⟩
    else
      ⟨.error (.ofError err) StatusInternalServerError, s, [call]⟩
  | .ok user => ⟨.json StatusOK (marshalUserResponse (toUserResponse user)), s, [call]⟩

/-- The handler `handleUpdateUser` (main.go, lines 157-192). -/
def handleUpdateUser {σ : Type} (q : Queries σ) (r : Request) (s : σ) : Outcome σ :=
  let id := r.PathId
  match ParseInt id 32 with
  | .error err => ⟨.error (.ofError err) StatusBadRequest, s, []⟩
  | .ok idInt =>
    match r.Body with
    | .error err => ⟨.error (.ofError err) StatusBadRequest, s, []⟩
    | .ok input =>
      let user : UpdateUserParams :=
        { ID := int32 idInt, Name := input.Name, Email := input.Email,
          PhoneNumber := input.PhoneNumber, UserType := input.UserType,
          Address := input.Address }
      match q.UpdateUser user s with
      | (some err, s1) =>
        ⟨.error (.ofError err) StatusInternalServerError, s1, [.UpdateUser user]⟩
      | (none, s1) => ⟨.header StatusCreated, s1, [.UpdateUser user]⟩

/-- The handler `handleDeleteUser` (main.go, lines 194-213). -/
def handleDeleteUser {σ : Type} (q : Queries σ) (r : Request) (s : σ) : Outcome σ :=
  let id := r.PathId
  match ParseInt id 32 with
  | .error err => ⟨.error (.ofError err) StatusBadRequest, s, []⟩
  | .ok idInt =>
    match q.DeleteUser (int32 idInt) s with
    | (some err, s1) =>
      ⟨.error (.ofError err) StatusInternalServerError, s1, [.DeleteUser (int32 idInt)]⟩
    | (none, s1) => ⟨.header StatusNoContent, s1, [.DeleteUser (int32 idInt)]⟩

/-- The handler `handleCreateUser` (main.go, lines 215-268). -/
def handleCreateUser {σ : Type} (q : Queries σ) (r : Request) (s : σ) : Outcome σ :=
  if r.Method ≠ MethodPost then ⟨.notFound, s, []⟩
  else
    match r.Body with
    | .error err => ⟨.error (.ofError err) StatusBadRequest, s, []⟩
    | .ok input =>
      -- Check if email is already in use
      let inUse : Bool :=
        match q.GetUserByEmail input.Email s with
        | .ok foundUser => foundUser.Email = input.Email
        | .error _ => false
      if inUse then
        ⟨.error (.lit "Email already in use") StatusBadRequest, s,
          [.GetUserByEmail input.Email]⟩
      else
        let user : CreateUserParams :=
          { Name := input.Name, Email := input.Email, PhoneNumber := input.PhoneNumber,
            UserType := input.UserType, Address := input.Address }
        match q.CreateUser user s with
        | (.error err, s1) =>
          ⟨.error (.ofError err) StatusInternalServerError, s1,
            [.GetUserByEmail input.Email, .CreateUser user]⟩
        | (.ok createdUser, s1) =>
          ⟨.json StatusCreated (marshalUserResponse (toUserResponse createdUser)), s1,
            [.GetUserByEmail input.Email, .CreateUser user]⟩

/-! ## Signed decimal texts -/

/-- Whether `c` is one of the ASCII digits `0` to `9`. -/
def isDecimalDigit (c : Char) : Bool := decide (48 ≤ c.toNat ∧ c.toNat ≤ 57)

/-- The number a sequence of decimal digits denotes, most significant digit
first, continuing from `n`. -/
def decimalValueFrom (n : Nat) (cs : List Char) : Nat :=
  cs.foldl (fun acc c => acc * 10 + (c.toNat - 48)) n

/-- What it means for a text to be a base-10 signed 32-bit integer: an optional
sign `+` or `-`, then one or more decimal digits, denoting a number between
`-2^31` and `2^31 - 1`. The result is that number, and `none` for every other
text (the empty text and a decimal text outside that range among them). This
is the reading of the words, to be compared with `ParseInt`. -/
def decimalInt32 (s : String) : Option Int :=
  match s.toList with
  | [] => none
  | c :: cs =>
    let digits := if c = '+' ∨ c = '-' then cs else c :: cs
    if digits ≠ [] ∧ digits.all isDecimalDigit then
      let v : Int :=
        if c = '-' then -(decimalValueFrom 0 digits : Int) else decimalValueFrom 0 digits
      if -2 ^ 31 ≤ v ∧ v ≤ 2 ^ 31 - 1 then some v else none
    else none

/-- The character of a decimal digit. -/
def digitChar : Nat → Char
  | 0 => '0'
  | 1 => '1'
  | 2 => '2'
  | 3 => '3'
  | 4 => '4'
  | 5 => '5'
  | 6 => '6'
  | 7 => '7'
  | 8 => '8'
  | _ => '9'

/-- The decimal digits of `n`, most significant first, computed with `fuel`
divisions by ten at most. -/
def decimalDigitsFuel : Nat → Nat → List Char
  | 0, _ => []
  | fuel + 1, n =>
    if n < 10 then [digitChar n]
    else decimalDigitsFuel fuel (n / 10) ++ [digitChar (n % 10)]

/-- The decimal digits of `n`, without leading zeros (`0` is the one digit `0`). -/
def decimalDigits (n : Nat) : List Char := decimalDigitsFuel (n + 1) n

/-- The decimal text of an integer, as `strconv.Itoa` writes it: the digits,
after a minus sign for a negative number. -/
def FormatInt (n : Int) : String :=
  if n < 0 then String.mk ('-' :: decimalDigits n.natAbs) else String.mk (decimalDigits n.toNat)

/-! ## The store, modelled from its contract -/

/-- Modelled from the spec: the state of the Store Access Layer (package
`main/users`, which is not among the sources): the UserAccount rows in the
store's order, and the identity the store assigns to the next row it creates. -/
structure Store where
  rows : List UserAccount
  nextID : Int
  deriving DecidableEq, Repr

/-- Modelled from the spec: the empty store of package `main/users`, which
has no row and assigns 1 as its first identity. -/
def Store.empty : Store := { rows := [], nextID := 1 }

/-- The row an insert creates from its parameters and the assigned identity. -/
def CreateUserParams.toRow (id : Int) (p : CreateUserParams) : UserAccount :=
  { ID := id, Name := p.Name, Email := p.Email, PhoneNumber := p.PhoneNumber,
    UserType := p.UserType, Address := p.Address }

/-- The row an update leaves in place of the row with its id. -/
def UpdateUserParams.toRow (p : UpdateUserParams) : UserAccount :=
  { ID := p.ID, Name := p.Name, Email := p.Email, PhoneNumber := p.PhoneNumber,
    UserType := p.UserType, Address := p.Address }

/-- Modelled from the spec: the six operations of the Store Access Layer
(section 4.6; the code is package `main/users`, which is not among the
sources), in sequential use and with a backend that does not fail.
`listAll` returns the rows in the store's order; `getById` and `getByEmail`
return the first row with that id or email and the not-found signal
(`sql.ErrNoRows`) when there is none; `insert` assigns the next identity and
returns the persisted row; `update` overwrites every field of the rows with
the given id; `delete` removes them. Update and delete of an absent id
succeed without effect. Every field value is accepted as it is, and
identities are integers counted up from the store's next identity: that an
identity fits the `int32` of the Go field is a hypothesis of the theorems that
need it. -/
def memQueries : Queries Store where
  ListUsers s := .ok (if s.rows = [] then .nil else .mk s.rows)
  GetUserById id s :=
    match s.rows.find? (fun u => u.ID = id) with
    | some u => .ok u
    | none => .error .ErrNoRows
  GetUserByEmail email s :=
    match s.rows.find? (fun u => u.Email = email) with
    | some u => .ok u
    | none => .error .ErrNoRows
  CreateUser p s :=
    (.ok (p.toRow s.nextID), { rows := s.rows ++ [p.toRow s.nextID], nextID := s.nextID + 1 })
  UpdateUser p s :=
    (none, { s with rows := s.rows.map (fun u => if u.ID = p.ID then p.toRow else u) })
  DeleteUser id s :=
    (none, { s with rows := s.rows.filter (fun u => u.ID ≠ id) })

/-- The stores that sequential use reaches: identities are positive and below
the next identity to assign. -/
def Store.WF (s : Store) : Prop :=
  0 < s.nextID ∧ ∀ u ∈ s.rows, 0 < u.ID ∧ u.ID < s.nextID

instance (s : Store) : Decidable s.WF := by
  unfold Store.WF
  infer_instance

/-- A store for exercising the error paths: it holds rows like `memQueries`,
but each of its lookups fails with the error of an expired context. -/
def lookupTimeoutQueries : Queries Store :=
  { memQueries with
    ListUsers := fun _ => .error (.other "context deadline exceeded")
    GetUserById := fun _ _ => .error (.other "context deadline exceeded")
    GetUserByEmail := fun _ _ => .error (.other "context deadline exceeded") }

/-- A store for exercising the create pre-check: it holds rows and writes
like `memQueries`, but each of its lookups fails with a connection error. -/
def lookupFailingQueries : Queries Store :=
  { memQueries with
    ListUsers := fun _ => .error (.other "read: connection reset by peer")
    GetUserById := fun _ _ => .error (.other "read: connection reset by peer")
    GetUserByEmail := fun _ _ => .error (.other "read: connection reset by peer") }

/-- The parameters `handleCreateUser` builds from a decoded body, field for
field. -/
def UserInput.createParams (input : UserInput) : CreateUserParams :=
  { Name := input.Name, Email := input.Email, PhoneNumber := input.PhoneNumber,
    UserType := input.UserType, Address := input.Address }

/-! ## Requests of the five routes -/

/-- A request `GET /users`. -/
def listRequest : Request := { Method := "GET", PathId := "", Body := .error (.other "EOF") }

/-- A request `GET /users/{id}` with the given path value. -/
def getRequest (identifier : String) : Request :=
  { Method := "GET", PathId := identifier, Body := .error (.other "EOF") }

/-- A request `POST /users` whose body decodes to `input`. -/
def createRequest (input : UserInput) : Request :=
  { Method := MethodPost, PathId := "", Body := .ok input }

/-- A request `PUT /users/{id}` whose body decodes to `input`. -/
def updateRequest (identifier : String) (input : UserInput) : Request :=
  { Method := "PUT", PathId := identifier, Body := .ok input }

/-- A request `DELETE /users/{id}`. -/
def deleteRequest (identifier : String) : Request :=
  { Method := "DELETE", PathId := identifier, Body := .error (.other "EOF") }

/-- Create requests for the inputs `us`, handled one after the other: the
responses in order, and the store afterwards. -/
def runCreates {σ : Type} (q : Queries σ) : List UserInput → σ → List Response × σ
  | [], s => ([], s)
  | u :: us, s =>
    let o := handleCreateUser q (createRequest u) s
    let rest := runCreates q us o.store
    (o.resp :: rest.1, rest.2)

/-- The row with identity `id` and the five fields of `u`. -/
def UserInput.toRow (u : UserInput) (id : Int) : UserAccount :=
  { ID := id, Name := u.Name, Email := u.Email, PhoneNumber := u.PhoneNumber,
    UserType := u.UserType, Address := u.Address }

/-- The rows expected of successive creates of `us` when the first identity
assigned is `next`: each input with its identity, in order. -/
def createdFrom (next : Int) : List UserInput → List UserAccount
  | [] => []
  | u :: us => u.toRow next :: createdFrom (next + 1) us

/-! ## The parse of a path value -/

theorem digitVal_of_digit (c : Char) (h : isDecimalDigit c = true) :
    digitVal c = some (c.toNat - 48) := by
  simp only [isDecimalDigit, decide_eq_true_eq] at h
  simp [digitVal, h]

theorem digitVal_of_not_digit (c : Char) (h : isDecimalDigit c = false) :
    digitVal c = none ∨ ∃ d, digitVal c = some d ∧ 10 ≤ d := by
  simp only [isDecimalDigit, decide_eq_false_iff_not] at h
  unfold digitVal
  rw [if_neg h]
  split
  · right
    exact ⟨_, rfl, by omega⟩
  · left
    rfl

theorem le_decimalValueFrom (cs : List Char) (n : Nat) : n ≤ decimalValueFrom n cs := by
  induction cs generalizing n with
  | nil => simp [decimalValueFrom]
  | cons c cs ih =>
    have := ih (n * 10 + (c.toNat - 48))
    simp only [decimalValueFrom, List.foldl_cons] at this ⊢
    omega

theorem parseUintLoop_digits (cs : List Char) (n : Nat)
    (hcs : cs.all isDecimalDigit = true) (hn : n ≤ 2 ^ 32 - 1) :
    parseUintLoop 10 (2 ^ 32 - 1) ((2 ^ 64 - 1) / 10 + 1) cs n =
      if decimalValueFrom n cs ≤ 2 ^ 32 - 1 then (decimalValueFrom n cs, none)
      else (2 ^ 32 - 1, some .ErrRange) := by
  induction cs generalizing n with
  | nil =>
    have hn2 : decimalValueFrom n [] ≤ 2 ^ 32 - 1 := by simpa [decimalValueFrom] using hn
    rw [if_pos hn2]
    rfl
  | cons c cs ih =>
    simp only [List.all_cons, Bool.and_eq_true] at hcs
    obtain ⟨hc, hcs⟩ := hcs
    have hd := digitVal_of_digit c hc
    simp only [isDecimalDigit, decide_eq_true_eq] at hc
    have hmono := le_decimalValueFrom cs (n * 10 + (c.toNat - 48))
    simp only [parseUintLoop, hd]
    have e1 : (n * 10) % 2 ^ 64 = n * 10 := Nat.mod_eq_of_lt (by norm_num at hn ⊢; omega)
    have e2 : (n * 10 + (c.toNat - 48)) % 2 ^ 64 = n * 10 + (c.toNat - 48) :=
      Nat.mod_eq_of_lt (by norm_num at hn ⊢; omega)
    rw [e1, e2]
    have h10 : ¬ (10 ≤ c.toNat - 48) := by omega
    have hcut : ¬ ((2 ^ 64 - 1) / 10 + 1 ≤ n) := by norm_num at hn ⊢; omega
    rw [if_neg h10, if_neg hcut]
    have hval : decimalValueFrom n (c :: cs) = decimalValueFrom (n * 10 + (c.toNat - 48)) cs := by
      simp [decimalValueFrom]
    rw [hval]
    by_cases hbig : 2 ^ 32 - 1 < n * 10 + (c.toNat - 48)
    · have : ¬ (decimalValueFrom (n * 10 + (c.toNat - 48)) cs ≤ 2 ^ 32 - 1) := by omega
      rw [if_pos (Or.inr hbig), if_neg this]
    · have hlt : ¬ (n * 10 + (c.toNat - 48) < n * 10) := by omega
      rw [if_neg (by tauto)]
      exact ih _ hcs (by omega)

theorem parseUintLoop_not_digits (cs : List Char) (n : Nat) (maxVal cutoff : Nat)
    (hcs : cs.all isDecimalDigit = false) :
    parseUintLoop 10 maxVal cutoff cs n = (0, some .ErrSyntax) ∨
      parseUintLoop 10 maxVal cutoff cs n = (maxVal, some .ErrRange) := by
  induction cs generalizing n with
  | nil => simp at hcs
  | cons c cs ih =>
    unfold parseUintLoop
    cases hc : isDecimalDigit c with
    | false =>
      rcases digitVal_of_not_digit c hc with h | ⟨d, h, hd⟩
      · simp [h]
      · simp [h, hd]
    | true =>
      have hrest : cs.all isDecimalDigit = false := by
        simpa [List.all_cons, hc] using hcs
      simp only [digitVal_of_digit c hc]
      split
      · simp
      · split
        · simp
        · split
          · simp
          · exact ih _ hrest

theorem ParseUint_digits (cs : List Char) (hne : cs ≠ [])
    (hcs : cs.all isDecimalDigit = true) :
    ParseUint cs 32 =
      if decimalValueFrom 0 cs ≤ 2 ^ 32 - 1 then (decimalValueFrom 0 cs, none)
      else (2 ^ 32 - 1, some .ErrRange) := by
  unfold ParseUint
  rw [if_neg hne]
  exact parseUintLoop_digits cs 0 hcs (by norm_num)

theorem ParseUint_not_digits (cs : List Char)
    (hcs : cs = [] ∨ cs.all isDecimalDigit = false) :
    ParseUint cs 32 = (0, some .ErrSyntax) ∨ ParseUint cs 32 = (2 ^ 32 - 1, some .ErrRange) := by
  unfold ParseUint
  by_cases hne : cs = []
  · simp [hne]
  · rw [if_neg hne]
    rcases hcs with h | h
    · exact absurd h hne
    · exact parseUintLoop_not_digits cs 0 _ _ h

/-- The last steps of `ParseInt` at bit size 32, once `ParseUint` has returned
a value without error. -/
theorem ParseInt_tail_ok (c : Char) (un : Nat) (hun : un ≤ 2 ^ 32 - 1) (num : String) :
    Except.toOption
      (if (none : Option NumErrKind) = some .ErrSyntax then
        (.error (.NumError "ParseInt" num .ErrSyntax) : Except GoError Int)
      else
        if decide (c = '-') = false ∧ 2 ^ (32 - 1) ≤ un then
          .error (.NumError "ParseInt" num .ErrRange)
        else if decide (c = '-') = true ∧ 2 ^ (32 - 1) < un then
          .error (.NumError "ParseInt" num .ErrRange)
        else if decide (c = '-') = true then .ok (-(un : Int)) else .ok (un : Int)) =
      if -2 ^ 31 ≤ (if c = '-' then -(un : Int) else (un : Int)) ∧
          (if c = '-' then -(un : Int) else (un : Int)) ≤ 2 ^ 31 - 1 then
        some (if c = '-' then -(un : Int) else (un : Int))
      else none := by
  have h0 : ¬ ((none : Option NumErrKind) = some .ErrSyntax) := by simp
  rw [if_neg h0]
  by_cases hneg : c = '-'
  · simp only [hneg, decide_True, if_true, true_and, Bool.true_eq_false, false_and, if_false]
    by_cases hbig : 2 ^ (32 - 1) < un
    · rw [if_pos hbig, if_neg (by norm_num at hbig ⊢; omega)]
      rfl
    · rw [if_neg hbig, if_pos (by norm_num at hbig ⊢; omega)]
      rfl
  · simp only [hneg, decide_False, if_false, true_and, Bool.false_eq_true, false_and]
    by_cases hbig : 2 ^ (32 - 1) ≤ un
    · rw [if_pos hbig, if_neg (by norm_num at hbig ⊢; omega)]
      rfl
    · rw [if_neg hbig, if_pos (by norm_num at hbig ⊢; omega)]
      rfl

/-- The last steps of `ParseInt` at bit size 32, once `ParseUint` has returned
a range error, with the value `maxVal`. -/
theorem ParseInt_tail_range (c : Char) (num : String) :
    Except.toOption
      (if (some NumErrKind.ErrRange : Option NumErrKind) = some .ErrSyntax then
        (.error (.NumError "ParseInt" num .ErrSyntax) : Except GoError Int)
      else
        if decide (c = '-') = false ∧ 2 ^ (32 - 1) ≤ 2 ^ 32 - 1 then
          .error (.NumError "ParseInt" num .ErrRange)
        else if decide (c = '-') = true ∧ 2 ^ (32 - 1) < 2 ^ 32 - 1 then
          .error (.NumError "ParseInt" num .ErrRange)
        else if decide (c = '-') = true then .ok (-((2 ^ 32 - 1 : Nat) : Int))
        else .ok ((2 ^ 32 - 1 : Nat) : Int)) = none := by
  by_cases hneg : c = '-'
  · simp [hneg, Except.toOption]
  · simp [hneg, Except.toOption]

/-- The parse of the handlers, `strconv.ParseInt(s, 10, 32)`, succeeds exactly
on the signed decimal texts whose value fits 32 bits, with that value. -/
theorem ParseInt_toOption (s : String) : (ParseInt s 32).toOption = decimalInt32 s := by
  unfold ParseInt decimalInt32
  cases hs : s.toList with
  | nil => rfl
  | cons c cs =>
    simp only []
    generalize hd : (if c = '+' ∨ c = '-' then cs else c :: cs) = digits
    by_cases hgood : digits ≠ [] ∧ digits.all isDecimalDigit = true
    · rw [if_pos hgood, ParseUint_digits digits hgood.1 hgood.2]
      by_cases hfit : decimalValueFrom 0 digits ≤ 2 ^ 32 - 1
      · rw [if_pos hfit]
        exact ParseInt_tail_ok c _ hfit s
      · rw [if_neg hfit]
        have hout : ¬ (-2 ^ 31 ≤ (if c = '-' then -(decimalValueFrom 0 digits : Int)
              else (decimalValueFrom 0 digits : Int)) ∧
            (if c = '-' then -(decimalValueFrom 0 digits : Int)
              else (decimalValueFrom 0 digits : Int)) ≤ 2 ^ 31 - 1) := by
          norm_num at hfit
          split_ifs <;> omega
        rw [if_neg hout]
        exact ParseInt_tail_range c s
    · rw [if_neg hgood]
      have hbad : digits = [] ∨ digits.all isDecimalDigit = false := by
        by_cases h : digits = []
        · exact Or.inl h
        · right
          cases hall : digits.all isDecimalDigit with
          | false => rfl
          | true => exact absurd ⟨h, hall⟩ hgood
      rcases ParseUint_not_digits digits hbad with h | h
      · rw [h]
        rfl
      · rw [h]
        exact ParseInt_tail_range c s

theorem decimalInt32_range (s : String) (n : Int) (h : decimalInt32 s = some n) :
    -2 ^ 31 ≤ n ∧ n ≤ 2 ^ 31 - 1 := by
  unfold decimalInt32 at h
  cases hs : s.toList with
  | nil =>
    rw [hs] at h
    simp at h
  | cons c cs =>
    rw [hs] at h
    simp only [] at h
    generalize (if c = '+' ∨ c = '-' then cs else c :: cs) = digits at h
    generalize (if c = '-' then -(decimalValueFrom 0 digits : Int)
      else (decimalValueFrom 0 digits : Int)) = v at h
    split_ifs at h with h1 h2
    simp only [Option.some.injEq] at h
    rw [← h]
    exact h2

theorem int32_of_range (n : Int) (h : -2 ^ 31 ≤ n ∧ n ≤ 2 ^ 31 - 1) : int32 n = n := by
  unfold int32
  omega

theorem ParseInt_ok_iff (s : String) (n : Int) :
    ParseInt s 32 = .ok n ↔ decimalInt32 s = some n := by
  rw [← ParseInt_toOption]
  cases ParseInt s 32 <;> simp [Except.toOption]

theorem ParseInt_error_iff (s : String) :
    (∃ e, ParseInt s 32 = .error e) ↔ decimalInt32 s = none := by
  rw [← ParseInt_toOption]
  cases ParseInt s 32 <;> simp [Except.toOption]

/-- The store calls of `handleGetUser`, on a path value that is a signed
decimal text fitting 32 bits. -/
theorem handleGetUser_of_int {σ : Type} (q : Queries σ) (r : Request) (s : σ) (n : Int)
    (h : decimalInt32 r.PathId = some n) :
    handleGetUser q r s =
      match q.GetUserById n s with
      | .error err =>
        if err = GoError.ErrNoRows then
          ⟨.error (.lit "User not found") StatusNotFound, s, [.GetUserById n]⟩
        else ⟨.error (.ofError err) StatusInternalServerError, s, [.GetUserById n]⟩
      | .ok user =>
        ⟨.json StatusOK (marshalUserResponse (toUserResponse user)), s, [.GetUserById n]⟩ := by
  have hp : ParseInt r.PathId 32 = .ok n := (ParseInt_ok_iff _ _).2 h
  have hi : int32 n = n := int32_of_range n (decimalInt32_range _ _ h)
  simp only [handleGetUser, hp, hi]

/-- The store calls of `handleGetUser`, on any other path value. -/
theorem handleGetUser_of_text {σ : Type} (q : Queries σ) (r : Request) (s : σ)
    (h : decimalInt32 r.PathId = none) :
    handleGetUser q r s =
      match q.GetUserByEmail r.PathId s with
      | .error err =>
        if err = GoError.ErrNoRows then
          ⟨.error (.lit "User not found") StatusNotFound, s, [.GetUserByEmail r.PathId]⟩
        else ⟨.error (.ofError err) StatusInternalServerError, s, [.GetUserByEmail r.PathId]⟩
      | .ok user =>
        ⟨.json StatusOK (marshalUserResponse (toUserResponse user)), s,
          [.GetUserByEmail r.PathId]⟩ := by
  obtain ⟨e, hp⟩ := (ParseInt_error_iff _).2 h
  simp only [handleGetUser, hp]

/-- C1. For every identifier text, `handleGetUser` makes exactly one store
call: when the text is a base-10 signed 32-bit integer `n` (which is exactly
when `strconv.ParseInt(s, 10, 32)` succeeds, and then with the value `n`) the
call is `GetUserById` with `n` itself, the `int32` conversion changing nothing;
for every other text, the empty text and decimal texts outside the 32-bit
range included, the call is `GetUserByEmail` with the whole text. -/
theorem handleGetUser_one_lookup {σ : Type} (q : Queries σ) (r : Request) (s : σ) :
    (handleGetUser q r s).calls =
        (match decimalInt32 r.PathId with
          | some n => [StoreCall.GetUserById n]
          | none => [StoreCall.GetUserByEmail r.PathId]) ∧
      (ParseInt r.PathId 32).toOption = decimalInt32 r.PathId ∧
      decimalInt32 "" = none ∧ decimalInt32 "2147483648" = none ∧
      decimalInt32 "-2147483649" = none := by
  refine ⟨?_, ParseInt_toOption _, by decide, by decide, by decide⟩
  cases h : decimalInt32 r.PathId with
  | some n =>
    rw [handleGetUser_of_int q r s n h]
    cases q.GetUserById n s with
    | error err => by_cases he : err = GoError.ErrNoRows <;> simp [he]
    | ok user => rfl
  | none =>
    rw [handleGetUser_of_text q r s h]
    cases q.GetUserByEmail r.PathId s with
    | error err => by_cases he : err = GoError.ErrNoRows <;> simp [he]
    | ok user => rfl

/-- C1, on a store with two rows: the text `2` is looked up by id, the texts
`b@x.com`, `2147483648` and the empty text by email. -/
theorem handleGetUser_one_lookup_witness :
    (handleGetUser memQueries (getRequest "2")
        ⟨[⟨1, "A", "a@x.com", "1", "T1", "Addr"⟩, ⟨2, "B", "b@x.com", "2", "T1", "Addr"⟩], 3⟩).calls
      = [StoreCall.GetUserById 2] ∧
    (handleGetUser memQueries (getRequest "b@x.com")
        ⟨[⟨1, "A", "a@x.com", "1", "T1", "Addr"⟩, ⟨2, "B", "b@x.com", "2", "T1", "Addr"⟩], 3⟩).calls
      = [StoreCall.GetUserByEmail "b@x.com"] ∧
    (handleGetUser memQueries (getRequest "2147483648") Store.empty).calls
      = [StoreCall.GetUserByEmail "2147483648"] ∧
    (handleGetUser memQueries (getRequest "") Store.empty).calls
      = [StoreCall.GetUserByEmail ""] :=
  ⟨(handleGetUser_one_lookup memQueries (getRequest "2") _).1,
   (handleGetUser_one_lookup memQueries (getRequest "b@x.com") _).1,
   (handleGetUser_one_lookup memQueries (getRequest "2147483648") _).1,
   (handleGetUser_one_lookup memQueries (getRequest "") _).1⟩

/-! ## Error responses of the handlers -/

/-- C4. For every identifier, whichever lookup it selects, `handleGetUser`
answers 404 with the text "User not found" exactly when that lookup returns
the not-found signal `sql.ErrNoRows`; when the lookup returns any other error
it answers 500 with that error's text; and in neither case is a JSON body
(a `UserResponse`) written. -/
theorem handleGetUser_lookup_errors {σ : Type} (q : Queries σ) (r : Request) (s : σ) :
    let lookup :=
      match decimalInt32 r.PathId with
      | some n => q.GetUserById n s
      | none => q.GetUserByEmail r.PathId s
    ((handleGetUser q r s).resp = .error (.lit "User not found") StatusNotFound ↔
        lookup = .error .ErrNoRows) ∧
      ((handleGetUser q r s).resp.status = StatusNotFound ↔ lookup = .error .ErrNoRows) ∧
      (∀ err, lookup = .error err → err ≠ .ErrNoRows →
        (handleGetUser q r s).resp = .error (.ofError err) StatusInternalServerError) ∧
      (∀ err, lookup = .error err → (handleGetUser q r s).resp.jsonBody = none) := by
  intro lookup
  have key : (handleGetUser q r s).resp =
      match lookup with
      | .error err =>
        if err = GoError.ErrNoRows then .error (.lit "User not found") StatusNotFound
        else .error (.ofError err) StatusInternalServerError
      | .ok user => .json StatusOK (marshalUserResponse (toUserResponse user)) := by
    show (handleGetUser q r s).resp = match (match decimalInt32 r.PathId with
      | some n => q.GetUserById n s
      | none => q.GetUserByEmail r.PathId s) with
      | .error err =>
        if err = GoError.ErrNoRows then .error (.lit "User not found") StatusNotFound
        else .error (.ofError err) StatusInternalServerError
      | .ok user => .json StatusOK (marshalUserResponse (toUserResponse user))
    cases h : decimalInt32 r.PathId with
    | some n =>
      rw [handleGetUser_of_int q r s n h]
      dsimp only
      generalize q.GetUserById n s = res
      cases res with
      | error err => by_cases he : err = GoError.ErrNoRows <;> simp [he]
      | ok user => rfl
    | none =>
      rw [handleGetUser_of_text q r s h]
      dsimp only
      generalize q.GetUserByEmail r.PathId s = res
      cases res with
      | error err => by_cases he : err = GoError.ErrNoRows <;> simp [he]
      | ok user => rfl
  rw [key]
  cases lookup with
  | ok user => simp [Response.status]
  | error err =>
    by_cases he : err = GoError.ErrNoRows
    · subst he
      simp [Response.status, Response.jsonBody]
    · simp [he, Response.status, Response.jsonBody]

/-- C4, at three lookups: an absent id and an absent email give 404, a lookup
that times out gives 500 with the error's text. -/
theorem handleGetUser_lookup_errors_witness :
    (handleGetUser memQueries (getRequest "7") Store.empty).resp
        = .error (.lit "User not found") StatusNotFound ∧
      (handleGetUser memQueries (getRequest "a@x.com") Store.empty).resp
        = .error (.lit "User not found") StatusNotFound ∧
      (handleGetUser lookupTimeoutQueries (getRequest "7") Store.empty).resp
        = .error (.ofError (.other "context deadline exceeded")) StatusInternalServerError :=
  ⟨(handleGetUser_lookup_errors memQueries (getRequest "7") Store.empty).1.2 rfl,
   (handleGetUser_lookup_errors memQueries (getRequest "a@x.com") Store.empty).1.2 rfl,
   (handleGetUser_lookup_errors lookupTimeoutQueries (getRequest "7") Store.empty).2.2.1
      _ rfl (by decide)⟩

/-- C5. Input errors are answered 400 before any store call. A path value
that is not a signed 32-bit decimal makes `handleUpdateUser` and
`handleDeleteUser` answer 400 with the parse error, call no store operation
and leave the store as it was; a body that fails to decode does the same to
`handleCreateUser` (reached with POST, the one method routed to it) and to
`handleUpdateUser`, so no row is created or changed. -/
theorem input_errors_before_store {σ : Type} (q : Queries σ) (s : σ) :
    (∀ r : Request, decimalInt32 r.PathId = none →
        ∃ err, handleUpdateUser q r s = ⟨.error (.ofError err) StatusBadRequest, s, []⟩) ∧
      (∀ r : Request, decimalInt32 r.PathId = none →
        ∃ err, handleDeleteUser q r s = ⟨.error (.ofError err) StatusBadRequest, s, []⟩) ∧
      (∀ (r : Request) (err : GoError), r.Method = MethodPost → r.Body = .error err →
        handleCreateUser q r s = ⟨.error (.ofError err) StatusBadRequest, s, []⟩) ∧
      (∀ (r : Request) (err : GoError), r.Body = .error err →
        ∃ err1, handleUpdateUser q r s = ⟨.error (.ofError err1) StatusBadRequest, s, []⟩) := by
  refine ⟨?_, ?_, ?_, ?_⟩
  · intro r h
    obtain ⟨e, hp⟩ := (ParseInt_error_iff _).2 h
    exact ⟨e, by simp only [handleUpdateUser, hp]⟩
  · intro r h
    obtain ⟨e, hp⟩ := (ParseInt_error_iff _).2 h
    exact ⟨e, by simp only [handleDeleteUser, hp]⟩
  · intro r err hm hb
    simp [handleCreateUser, hm, hb]
  · intro r err hb
    cases hp : ParseInt r.PathId 32 with
    | error e => exact ⟨e, by simp only [handleUpdateUser, hp]⟩
    | ok n => exact ⟨err, by simp only [handleUpdateUser, hp, hb]⟩

/-- C5, on a store with one row: the path value `abc` and a body that fails
to decode are answered 400, with no store call and the row untouched. -/
theorem input_errors_before_store_witness :
    (∃ err, handleUpdateUser memQueries (updateRequest "abc" ⟨"B", "b@x.com", "2", "T1", "X"⟩)
        ⟨[⟨1, "A", "a@x.com", "1", "T1", "Addr"⟩], 2⟩ =
      ⟨.error (.ofError err) StatusBadRequest, ⟨[⟨1, "A", "a@x.com", "1", "T1", "Addr"⟩], 2⟩, []⟩) ∧
    (∃ err, handleDeleteUser memQueries (deleteRequest "abc")
        ⟨[⟨1, "A", "a@x.com", "1", "T1", "Addr"⟩], 2⟩ =
      ⟨.error (.ofError err) StatusBadRequest, ⟨[⟨1, "A", "a@x.com", "1", "T1", "Addr"⟩], 2⟩, []⟩) ∧
    handleCreateUser memQueries ⟨MethodPost, "", .error (.other "unexpected EOF")⟩
        ⟨[⟨1, "A", "a@x.com", "1", "T1", "Addr"⟩], 2⟩ =
      ⟨.error (.ofError (.other "unexpected EOF")) StatusBadRequest,
        ⟨[⟨1, "A", "a@x.com", "1", "T1", "Addr"⟩], 2⟩, []⟩ ∧
    (∃ err, handleUpdateUser memQueries ⟨"PUT", "1", .error (.other "unexpected EOF")⟩
        ⟨[⟨1, "A", "a@x.com", "1", "T1", "Addr"⟩], 2⟩ =
      ⟨.error (.ofError err) StatusBadRequest, ⟨[⟨1, "A", "a@x.com", "1", "T1", "Addr"⟩], 2⟩, []⟩) :=
  ⟨(input_errors_before_store memQueries _).1 _ (by decide),
   (input_errors_before_store memQueries _).2.1 _ (by decide),
   (input_errors_before_store memQueries _).2.2.1 _ _ rfl rfl,
   (input_errors_before_store memQueries _).2.2.2 _ (.other "unexpected EOF") rfl⟩

/-! ## The create handler and the list handler -/

/-- The create handler when the pre-check finds the submitted email. -/
theorem handleCreateUser_found {σ : Type} (q : Queries σ) (r : Request) (s : σ)
    (input : UserInput) (found : UserAccount)
    (hm : r.Method = MethodPost) (hb : r.Body = .ok input)
    (hl : q.GetUserByEmail input.Email s = .ok found) (he : found.Email = input.Email) :
    handleCreateUser q r s =
      ⟨.error (.lit "Email already in use") StatusBadRequest, s,
        [.GetUserByEmail input.Email]⟩ := by
  simp [handleCreateUser, hm, hb, hl, he]

/-- The create handler when the pre-check does not find the submitted email:
the lookup fails, or returns a row with another email. -/
theorem handleCreateUser_free {σ : Type} (q : Queries σ) (r : Request) (s : σ)
    (input : UserInput)
    (hm : r.Method = MethodPost) (hb : r.Body = .ok input)
    (hl : ∀ found, q.GetUserByEmail input.Email s = .ok found → found.Email ≠ input.Email) :
    handleCreateUser q r s =
      match q.CreateUser input.createParams s with
      | (.error err, s1) =>
        ⟨.error (.ofError err) StatusInternalServerError, s1,
          [.GetUserByEmail input.Email, .CreateUser input.createParams]⟩
      | (.ok createdUser, s1) =>
        ⟨.json StatusCreated (marshalUserResponse (toUserResponse createdUser)), s1,
          [.GetUserByEmail input.Email, .CreateUser input.createParams]⟩ := by
  have hfree : (match q.GetUserByEmail input.Email s with
      | .ok foundUser => decide (foundUser.Email = input.Email)
      | .error _ => false) = false := by
    cases hq : q.GetUserByEmail input.Email s with
    | error e => rfl
    | ok found => simpa using hl found hq
  simp only [handleCreateUser, hm, hb, ne_eq, not_true_eq_false, if_false, hfree,
    UserInput.createParams]
  rfl

/-- C2, as amended. For every store state and every create request whose
body decodes, if the pre-check lookup by the submitted email returns a row
whose email equals the submitted email, `handleCreateUser` answers 400 with
the text "Email already in use", its one store call is that lookup (the insert
is never called), and the store, hence what `ListUsers` returns, is
unchanged. -/
theorem handleCreateUser_email_in_use {σ : Type} (q : Queries σ) (r : Request) (s : σ)
    (input : UserInput) (found : UserAccount)
    (hm : r.Method = MethodPost) (hb : r.Body = .ok input)
    (hl : q.GetUserByEmail input.Email s = .ok found) (he : found.Email = input.Email) :
    (handleCreateUser q r s).resp = .error (.lit "Email already in use") StatusBadRequest ∧
      (handleCreateUser q r s).calls = [.GetUserByEmail input.Email] ∧
      (∀ p, StoreCall.CreateUser p ∉ (handleCreateUser q r s).calls) ∧
      (handleCreateUser q r s).store = s ∧
      q.ListUsers (handleCreateUser q r s).store = q.ListUsers s := by
  rw [handleCreateUser_found q r s input found hm hb hl he]
  simp

/-- C2, on a store with the row of `a@x.com`: a create with that email is
answered 400 and the store keeps its one row. -/
theorem handleCreateUser_email_in_use_witness :
    (handleCreateUser memQueries (createRequest ⟨"B", "a@x.com", "2", "T1", "X"⟩)
        ⟨[⟨1, "A", "a@x.com", "1", "T1", "Addr"⟩], 2⟩).resp
      = .error (.lit "Email already in use") StatusBadRequest ∧
    (handleCreateUser memQueries (createRequest ⟨"B", "a@x.com", "2", "T1", "X"⟩)
        ⟨[⟨1, "A", "a@x.com", "1", "T1", "Addr"⟩], 2⟩).store
      = ⟨[⟨1, "A", "a@x.com", "1", "T1", "Addr"⟩], 2⟩ :=
  have h := handleCreateUser_email_in_use memQueries
    (createRequest ⟨"B", "a@x.com", "2", "T1", "X"⟩)
    ⟨[⟨1, "A", "a@x.com", "1", "T1", "Addr"⟩], 2⟩ ⟨"B", "a@x.com", "2", "T1", "X"⟩
    ⟨1, "A", "a@x.com", "1", "T1", "Addr"⟩ rfl rfl (by decide) rfl
  ⟨h.1, h.2.2.2.1⟩

/-- C2 as stated fails when the store holds the row and the lookup does not
return it. The store holds the row of `a@x.com` and its lookups fail with a
connection error: a create with the email `a@x.com` is answered 201, the
insert is called, and the store then holds two rows with that email. -/
theorem handleCreateUser_email_held_lookup_fails :
    (∃ row ∈ ([⟨1, "A", "a@x.com", "1", "T1", "Addr"⟩] : List UserAccount),
        row.Email = "a@x.com") ∧
      handleCreateUser lookupFailingQueries (createRequest ⟨"B", "a@x.com", "2", "T1", "X"⟩)
          ⟨[⟨1, "A", "a@x.com", "1", "T1", "Addr"⟩], 2⟩ =
        ⟨.json StatusCreated
            (.obj [("id", .num 2), ("name", .str "B"), ("email", .str "a@x.com"),
              ("phone_number", .str "2"), ("user_type", .str "T1"),
              ("address", .str "X")]),
          ⟨[⟨1, "A", "a@x.com", "1", "T1", "Addr"⟩, ⟨2, "B", "a@x.com", "2", "T1", "X"⟩], 3⟩,
          [.GetUserByEmail "a@x.com", .CreateUser ⟨"B", "a@x.com", "2", "T1", "X"⟩]⟩ := by
  decide

/-- C6. For every create request whose body decodes, if the pre-check
`GetUserByEmail` returns an error, whatever it is, `handleCreateUser` does not
report it: the store calls are that lookup and then the insert, with the
parameters built field for field from the `UserInput`; the response is 201
with the row the insert returned, its id and five fields under their JSON
keys, when the insert succeeds, and 500 with the insert error's text when it
fails. -/
theorem handleCreateUser_precheck_error {σ : Type} (q : Queries σ) (r : Request) (s : σ)
    (input : UserInput) (err : GoError)
    (hm : r.Method = MethodPost) (hb : r.Body = .ok input)
    (hl : q.GetUserByEmail input.Email s = .error err) :
    (handleCreateUser q r s).calls =
        [.GetUserByEmail input.Email,
          .CreateUser ⟨input.Name, input.Email, input.PhoneNumber, input.UserType,
            input.Address⟩] ∧
      (∀ created s1,
        q.CreateUser ⟨input.Name, input.Email, input.PhoneNumber, input.UserType,
            input.Address⟩ s = (.ok created, s1) →
          (handleCreateUser q r s).resp =
              .json StatusCreated
                (.obj [("id", .num created.ID), ("name", .str created.Name), ("email", .str created.Email),
                  ("phone_number", .str created.PhoneNumber), ("user_type", .str created.UserType),
                  ("address", .str created.Address)]) ∧
            (handleCreateUser q r s).store = s1) ∧
      (∀ err1 s1,
        q.CreateUser ⟨input.Name, input.Email, input.PhoneNumber, input.UserType,
            input.Address⟩ s = (.error err1, s1) →
          (handleCreateUser q r s).resp = .error (.ofError err1) StatusInternalServerError ∧
            (handleCreateUser q r s).store = s1) := by
  have hfree : ∀ found, q.GetUserByEmail input.Email s = .ok found →
      found.Email ≠ input.Email := by
    intro found hf
    rw [hl] at hf
    cases hf
  rw [handleCreateUser_free q r s input hm hb hfree]
  have hp : input.createParams = ⟨input.Name, input.Email, input.PhoneNumber, input.UserType,
      input.Address⟩ := rfl
  rw [hp]
  generalize q.CreateUser ⟨input.Name, input.Email, input.PhoneNumber, input.UserType,
      input.Address⟩ s = res
  obtain ⟨res, s2⟩ := res
  cases res with
  | error e =>
    refine ⟨rfl, ?_, ?_⟩
    · intro created s1 h
      cases h
    · intro err1 s1 h
      cases h
      exact ⟨rfl, rfl⟩
  | ok u =>
    refine ⟨rfl, ?_, ?_⟩
    · intro created s1 h
      cases h
      exact ⟨rfl, rfl⟩
    · intro err1 s1 h
      cases h

/-- C6, twice. On the empty store the pre-check returns the not-found signal,
and on a store whose lookups fail with a connection error it returns that
error: both times the insert is called with the submitted fields and the
answer is 201 with the new row. -/
theorem handleCreateUser_precheck_error_witness :
    (handleCreateUser memQueries (createRequest ⟨"A", "a@x.com", "1", "T1", "Addr"⟩)
        Store.empty).calls
      = [.GetUserByEmail "a@x.com", .CreateUser ⟨"A", "a@x.com", "1", "T1", "Addr"⟩] ∧
    (handleCreateUser memQueries (createRequest ⟨"A", "a@x.com", "1", "T1", "Addr"⟩)
        Store.empty).resp
      = .json StatusCreated
          (.obj [("id", .num 1), ("name", .str "A"), ("email", .str "a@x.com"),
            ("phone_number", .str "1"), ("user_type", .str "T1"),
            ("address", .str "Addr")]) ∧
    (handleCreateUser lookupFailingQueries (createRequest ⟨"B", "b@x.com", "2", "T1", "X"⟩)
        ⟨[⟨1, "A", "a@x.com", "1", "T1", "Addr"⟩], 2⟩).calls
      = [.GetUserByEmail "b@x.com", .CreateUser ⟨"B", "b@x.com", "2", "T1", "X"⟩] ∧
    (handleCreateUser lookupFailingQueries (createRequest ⟨"B", "b@x.com", "2", "T1", "X"⟩)
        ⟨[⟨1, "A", "a@x.com", "1", "T1", "Addr"⟩], 2⟩).resp
      = .json StatusCreated
          (.obj [("id", .num 2), ("name", .str "B"), ("email", .str "b@x.com"),
            ("phone_number", .str "2"), ("user_type", .str "T1"),
            ("address", .str "X")]) :=
  have h1 := handleCreateUser_precheck_error memQueries
    (createRequest ⟨"A", "a@x.com", "1", "T1", "Addr"⟩) Store.empty
    ⟨"A", "a@x.com", "1", "T1", "Addr"⟩ .ErrNoRows rfl rfl rfl
  have h2 := handleCreateUser_precheck_error lookupFailingQueries
    (createRequest ⟨"B", "b@x.com", "2", "T1", "X"⟩)
    ⟨[⟨1, "A", "a@x.com", "1", "T1", "Addr"⟩], 2⟩ ⟨"B", "b@x.com", "2", "T1", "X"⟩
    (.other "read: connection reset by peer") rfl rfl rfl
  ⟨h1.1, (h1.2.1 _ _ rfl).1, h2.1, (h2.2.1 _ _ rfl).1⟩

/-- The loop of `handleGetAllUsers`: appending each row's response to a
slice. -/
theorem foldl_append_toList (users : List UserAccount) (acc : GoSlice UserResponse) :
    (users.foldl (fun acc user => acc.append (toUserResponse user)) acc).toList =
      acc.toList ++ users.map toUserResponse := by
  induction users generalizing acc with
  | nil => simp
  | cons u us ih =>
    rw [List.foldl_cons, ih]
    simp [GoSlice.append, GoSlice.toList]

theorem foldl_append_nil_toList (users : List UserAccount) :
    (users.foldl (fun acc user => acc.append (toUserResponse user)) GoSlice.nil).toList =
      users.map toUserResponse := by
  simpa [GoSlice.toList] using foldl_append_toList users .nil

/-- The response of `handleGetAllUsers` when the store's list succeeds. -/
theorem handleGetAllUsers_ok {σ : Type} (q : Queries σ) (r : Request) (s : σ)
    (users : GoSlice UserAccount) (h : q.ListUsers s = .ok users) :
    handleGetAllUsers q r s =
      ⟨.json StatusOK (.arr (users.toList.map (fun u => (toUserResponse u).fields))), s,
        [.ListUsers]⟩ := by
  simp only [handleGetAllUsers, h]
  have ht := foldl_append_nil_toList users.toList
  generalize List.foldl (fun (acc : GoSlice UserResponse) user =>
    acc.append (toUserResponse user)) GoSlice.nil users.toList = res at ht ⊢
  cases res with
  | nil =>
    have h0 : users.toList.map toUserResponse = [] := ht.symm
    have h1 : users.toList = [] := List.map_eq_nil_iff.1 h0
    simp [GoSlice.isNil, marshalUserResponses, h1]
  | mk xs =>
    have h1 : xs = users.toList.map toUserResponse := ht
    subst h1
    simp [GoSlice.isNil, marshalUserResponses, Function.comp_def]

/-- C9. Whenever the store's list succeeds with no rows, as a nil slice or as
an empty one, `handleGetAllUsers` answers 200 with the empty JSON array; and
for every successful result of the store the body is a JSON array, never
`null` and never absent. -/
theorem handleGetAllUsers_array {σ : Type} (q : Queries σ) (r : Request) (s : σ) :
    (q.ListUsers s = .ok .nil → (handleGetAllUsers q r s).resp = .json StatusOK (.arr [])) ∧
      (q.ListUsers s = .ok (.mk []) →
        (handleGetAllUsers q r s).resp = .json StatusOK (.arr [])) ∧
      (∀ users, q.ListUsers s = .ok users →
        (handleGetAllUsers q r s).resp =
            .json StatusOK (.arr (users.toList.map (fun u => (toUserResponse u).fields))) ∧
          (handleGetAllUsers q r s).resp.jsonBody ≠ some .null ∧
          (handleGetAllUsers q r s).resp.jsonBody ≠ none) := by
  refine ⟨?_, ?_, ?_⟩
  · intro h
    rw [handleGetAllUsers_ok q r s _ h]
    rfl
  · intro h
    rw [handleGetAllUsers_ok q r s _ h]
    rfl
  · intro users h
    rw [handleGetAllUsers_ok q r s _ h]
    simp [Response.jsonBody]

/-- C9, on the empty store, whose list is the nil slice: the body is the
empty array. -/
theorem handleGetAllUsers_array_witness :
    (handleGetAllUsers memQueries listRequest Store.empty).resp = .json StatusOK (.arr []) :=
  (handleGetAllUsers_array memQueries listRequest Store.empty).1 rfl

/-! ## The decimal text of an identity parses back -/

theorem digitChar_toNat (d : Nat) (h : d < 10) : (digitChar d).toNat = 48 + d := by
  interval_cases d <;> rfl

theorem isDecimalDigit_digitChar (d : Nat) (h : d < 10) : isDecimalDigit (digitChar d) = true := by
  simp [isDecimalDigit, digitChar_toNat d h]
  omega

theorem decimalValueFrom_append (n : Nat) (xs ys : List Char) :
    decimalValueFrom n (xs ++ ys) = decimalValueFrom (decimalValueFrom n xs) ys := by
  simp [decimalValueFrom, List.foldl_append]

theorem decimalDigitsFuel_spec (fuel n : Nat) (h : n < fuel) :
    decimalDigitsFuel fuel n ≠ [] ∧
      (decimalDigitsFuel fuel n).all isDecimalDigit = true ∧
      decimalValueFrom 0 (decimalDigitsFuel fuel n) = n := by
  induction fuel generalizing n with
  | zero => omega
  | succ fuel ih =>
    unfold decimalDigitsFuel
    by_cases hlt : n < 10
    · rw [if_pos hlt]
      refine ⟨by simp, ?_, ?_⟩
      · simp [isDecimalDigit_digitChar n hlt]
      · simp [decimalValueFrom, digitChar_toNat n hlt]
    · rw [if_neg hlt]
      have hdiv : n / 10 < fuel := by omega
      obtain ⟨_, hall, hval⟩ := ih (n / 10) hdiv
      have hmod : n % 10 < 10 := Nat.mod_lt _ (by norm_num)
      refine ⟨by simp, ?_, ?_⟩
      · simp [List.all_append, hall, isDecimalDigit_digitChar _ hmod]
      · rw [decimalValueFrom_append, hval]
        simp only [decimalValueFrom, List.foldl_cons, List.foldl_nil, digitChar_toNat _ hmod]
        omega

theorem decimalDigits_spec (n : Nat) :
    decimalDigits n ≠ [] ∧ (decimalDigits n).all isDecimalDigit = true ∧
      decimalValueFrom 0 (decimalDigits n) = n :=
  decimalDigitsFuel_spec (n + 1) n (Nat.lt_succ_self n)

/-- A text of decimal digits only is the number it denotes, when that fits. -/
theorem decimalInt32_digits (cs : List Char) (hne : cs ≠ [])
    (hall : cs.all isDecimalDigit = true) (hfit : decimalValueFrom 0 cs ≤ 2 ^ 31 - 1) :
    decimalInt32 (String.mk cs) = some (decimalValueFrom 0 cs : Int) := by
  cases cs with
  | nil => exact absurd rfl hne
  | cons c cs =>
    have hc : isDecimalDigit c = true := by
      simp only [List.all_cons, Bool.and_eq_true] at hall
      exact hall.1
    simp only [isDecimalDigit, decide_eq_true_eq] at hc
    have hplus : c ≠ '+' := by
      intro h
      rw [h] at hc
      revert hc
      decide
    have hminus : c ≠ '-' := by
      intro h
      rw [h] at hc
      revert hc
      decide
    have hsign : ¬ (c = '+' ∨ c = '-') := by
      rintro (h | h)
      · exact hplus h
      · exact hminus h
    simp only [decimalInt32, String.toList]
    rw [if_neg hsign, if_pos ⟨hne, hall⟩, if_neg hminus, if_pos]
    constructor
    · have : (0 : Int) ≤ (decimalValueFrom 0 (c :: cs) : Int) := Int.natCast_nonneg _
      omega
    · norm_num at hfit ⊢
      omega

/-- A minus sign before decimal digits is the negated number, when that fits. -/
theorem decimalInt32_minus_digits (cs : List Char) (hne : cs ≠ [])
    (hall : cs.all isDecimalDigit = true) (hfit : decimalValueFrom 0 cs ≤ 2 ^ 31) :
    decimalInt32 (String.mk ('-' :: cs)) = some (-(decimalValueFrom 0 cs : Int)) := by
  simp only [decimalInt32, String.toList, or_true, if_true, ne_eq, hne, not_false_eq_true,
    hall, and_self]
  rw [if_pos]
  constructor
  · norm_num at hfit ⊢
    omega
  · have : (0 : Int) ≤ (decimalValueFrom 0 cs : Int) := Int.natCast_nonneg _
    omega

/-- The decimal text of an `int32` is a signed 32-bit decimal, of that number. -/
theorem decimalInt32_FormatInt (n : Int) (h : -2 ^ 31 ≤ n ∧ n ≤ 2 ^ 31 - 1) :
    decimalInt32 (FormatInt n) = some n := by
  unfold FormatInt
  by_cases hneg : n < 0
  · rw [if_pos hneg]
    obtain ⟨hne, hall, hval⟩ := decimalDigits_spec n.natAbs
    rw [decimalInt32_minus_digits _ hne hall (by rw [hval]; omega), hval]
    congr 1
    omega
  · rw [if_neg hneg]
    obtain ⟨hne, hall, hval⟩ := decimalDigits_spec n.toNat
    rw [decimalInt32_digits _ hne hall (by rw [hval]; omega), hval]
    congr 1
    omega

/-- The handlers parse the decimal text of an `int32` back to it. -/
theorem ParseInt_FormatInt (n : Int) (h : -2 ^ 31 ≤ n ∧ n ≤ 2 ^ 31 - 1) :
    ParseInt (FormatInt n) 32 = .ok n :=
  (ParseInt_ok_iff _ _).2 (decimalInt32_FormatInt n h)

/-! ## Handlers over the store of the contract -/

theorem find_id_none_of_lt (rows : List UserAccount) (n : Int)
    (h : ∀ u ∈ rows, u.ID < n) : rows.find? (fun u => decide (u.ID = n)) = none := by
  rw [List.find?_eq_none]
  intro u hu
  have := h u hu
  simp only [decide_eq_true_eq]
  omega

theorem find_email_none_iff (rows : List UserAccount) (e : String) :
    rows.find? (fun u => decide (u.Email = e)) = none ↔ ∀ u ∈ rows, u.Email ≠ e := by
  rw [List.find?_eq_none]
  simp

/-- The lookup by email of the modelled store finds a row exactly when the
store holds one with that email, and the row found has that email. -/
theorem memQueries_GetUserByEmail_ok_iff (s : Store) (e : String) :
    (∃ found, memQueries.GetUserByEmail e s = .ok found ∧ found.Email = e) ↔
      ∃ u ∈ s.rows, u.Email = e := by
  show (∃ found, (match s.rows.find? (fun u => decide (u.Email = e)) with
      | some u => Except.ok u
      | none => Except.error GoError.ErrNoRows) = .ok found ∧ found.Email = e) ↔ _
  cases h : s.rows.find? (fun u => decide (u.Email = e)) with
  | none =>
    have := (find_email_none_iff s.rows e).1 h
    constructor
    · rintro ⟨found, hf, _⟩
      cases hf
    · rintro ⟨u, hu, he⟩
      exact absurd he (this u hu)
  | some u =>
    have hmem := List.mem_of_find?_eq_some h
    have hp := List.find?_some h
    simp only [decide_eq_true_eq] at hp
    constructor
    · intro _
      exact ⟨u, hmem, hp⟩
    · intro _
      exact ⟨u, rfl, hp⟩

/-- A create on the modelled store succeeds exactly when no row has the
submitted email; it then appends the row with the next identity. -/
theorem handleCreateUser_mem (s : Store) (u : UserInput) :
    handleCreateUser memQueries (createRequest u) s =
      if ∃ row ∈ s.rows, row.Email = u.Email then
        ⟨.error (.lit "Email already in use") StatusBadRequest, s, [.GetUserByEmail u.Email]⟩
      else
        ⟨.json StatusCreated (marshalUserResponse (toUserResponse (u.toRow s.nextID))),
          ⟨s.rows ++ [u.toRow s.nextID], s.nextID + 1⟩,
          [.GetUserByEmail u.Email, .CreateUser u.createParams]⟩ := by
  by_cases h : ∃ row ∈ s.rows, row.Email = u.Email
  · rw [if_pos h]
    obtain ⟨found, hf, he⟩ := (memQueries_GetUserByEmail_ok_iff s u.Email).2 h
    exact handleCreateUser_found memQueries (createRequest u) s u found rfl rfl hf he
  · rw [if_neg h]
    have hfree : ∀ found, memQueries.GetUserByEmail u.Email s = .ok found →
        found.Email ≠ u.Email := by
      intro found hf he
      exact h ((memQueries_GetUserByEmail_ok_iff s u.Email).1 ⟨found, hf, he⟩)
    rw [handleCreateUser_free memQueries (createRequest u) s u rfl rfl hfree]
    rfl

/-- A get by the decimal text of an `int32` on the modelled store. -/
theorem handleGetUser_mem_id (s : Store) (n : Int) (hn : -2 ^ 31 ≤ n ∧ n ≤ 2 ^ 31 - 1) :
    handleGetUser memQueries (getRequest (FormatInt n)) s =
      match s.rows.find? (fun u => decide (u.ID = n)) with
      | some user =>
        ⟨.json StatusOK (marshalUserResponse (toUserResponse user)), s, [.GetUserById n]⟩
      | none => ⟨.error (.lit "User not found") StatusNotFound, s, [.GetUserById n]⟩ := by
  rw [handleGetUser_of_int memQueries (getRequest (FormatInt n)) s n
    (decimalInt32_FormatInt n hn)]
  show (match (match s.rows.find? (fun u => decide (u.ID = n)) with
      | some u => Except.ok u
      | none => Except.error GoError.ErrNoRows) with
    | .error err => _
    | .ok user => _) = _
  cases s.rows.find? (fun u => decide (u.ID = n)) <;> rfl

/-- A get by a text that is not a signed 32-bit decimal, on the modelled
store. -/
theorem handleGetUser_mem_email (s : Store) (e : String) (he : decimalInt32 e = none) :
    handleGetUser memQueries (getRequest e) s =
      match s.rows.find? (fun u => decide (u.Email = e)) with
      | some user =>
        ⟨.json StatusOK (marshalUserResponse (toUserResponse user)), s, [.GetUserByEmail e]⟩
      | none => ⟨.error (.lit "User not found") StatusNotFound, s, [.GetUserByEmail e]⟩ := by
  rw [handleGetUser_of_text memQueries (getRequest e) s he]
  show (match (match s.rows.find? (fun u => decide (u.Email = e)) with
      | some u => Except.ok u
      | none => Except.error GoError.ErrNoRows) with
    | .error err => _
    | .ok user => _) = _
  cases s.rows.find? (fun u => decide (u.Email = e)) <;> rfl

/-- The empty store is well formed, and the three writes of the modelled
store keep a store well formed: the stores of sequential use are well formed. -/
theorem memQueries_WF :
    Store.empty.WF ∧
      (∀ (s : Store) (p : CreateUserParams), s.WF → (memQueries.CreateUser p s).2.WF) ∧
      (∀ (s : Store) (p : UpdateUserParams), s.WF → (memQueries.UpdateUser p s).2.WF) ∧
      (∀ (s : Store) (id : Int), s.WF → (memQueries.DeleteUser id s).2.WF) := by
  refine ⟨⟨by decide, by simp [Store.empty]⟩, ?_, ?_, ?_⟩
  · rintro s p ⟨hpos, hids⟩
    refine ⟨?_, ?_⟩
    · show 0 < s.nextID + 1
      omega
    · intro u hu
      show 0 < u.ID ∧ u.ID < s.nextID + 1
      rcases List.mem_append.1 hu with h | h
      · have := hids u h
        omega
      · rw [List.mem_singleton] at h
        subst h
        show 0 < s.nextID ∧ s.nextID < s.nextID + 1
        omega
  · rintro s p ⟨hpos, hids⟩
    refine ⟨hpos, ?_⟩
    intro u hu
    obtain ⟨row, hrow, hmap⟩ := List.mem_map.1 hu
    by_cases hid : row.ID = p.ID
    · rw [if_pos hid] at hmap
      subst hmap
      show 0 < p.ID ∧ p.ID < s.nextID
      rw [← hid]
      exact hids row hrow
    · rw [if_neg hid] at hmap
      subst hmap
      exact hids row hrow
  · rintro s id ⟨hpos, hids⟩
    refine ⟨hpos, ?_⟩
    intro u hu
    exact hids u (List.mem_filter.1 hu).1

/-! ## Round trips: create, update and delete, then get -/

/-- C3, as amended. For every `UserInput` created successfully (201) on a
store of the contract whose next identity fits an `int32`: the create response
is 201 with a positive id and the five fields echoed; a following get with the
decimal text of that id answers 200 with the same id and fields; and a
following get with the email text answers 200 with that same row when the
email text is not itself a signed 32-bit decimal. An email text that is one is
looked up as an id instead. -/
theorem create_then_get (s : Store) (u : UserInput) (hwf : s.WF)
    (hfit : s.nextID ≤ 2 ^ 31 - 1)
    (hok : (handleCreateUser memQueries (createRequest u) s).resp.status = StatusCreated) :
    0 < s.nextID ∧
      (handleCreateUser memQueries (createRequest u) s).resp =
        .json StatusCreated
          (.obj [("id", .num s.nextID), ("name", .str u.Name), ("email", .str u.Email),
            ("phone_number", .str u.PhoneNumber), ("user_type", .str u.UserType),
            ("address", .str u.Address)]) ∧
      (handleGetUser memQueries (getRequest (FormatInt s.nextID))
          (handleCreateUser memQueries (createRequest u) s).store).resp =
        .json StatusOK
          (.obj [("id", .num s.nextID), ("name", .str u.Name), ("email", .str u.Email),
            ("phone_number", .str u.PhoneNumber), ("user_type", .str u.UserType),
            ("address", .str u.Address)]) ∧
      (decimalInt32 u.Email = none →
        (handleGetUser memQueries (getRequest u.Email)
            (handleCreateUser memQueries (createRequest u) s).store).resp =
          .json StatusOK
            (.obj [("id", .num s.nextID), ("name", .str u.Name), ("email", .str u.Email),
              ("phone_number", .str u.PhoneNumber), ("user_type", .str u.UserType),
              ("address", .str u.Address)])) ∧
      (∀ m, decimalInt32 u.Email = some m →
        (handleGetUser memQueries (getRequest u.Email)
            (handleCreateUser memQueries (createRequest u) s).store).calls =
          [.GetUserById m]) := by
  obtain ⟨hpos, hids⟩ := hwf
  rw [handleCreateUser_mem] at hok ⊢
  by_cases hdup : ∃ row ∈ s.rows, row.Email = u.Email
  · rw [if_pos hdup] at hok
    simp [Response.status] at hok
  · rw [if_neg hdup]
    have hfree : ∀ row ∈ s.rows, row.Email ≠ u.Email := by
      intro row hrow he
      exact hdup ⟨row, hrow, he⟩
    refine ⟨hpos, rfl, ?_, ?_, ?_⟩
    · rw [handleGetUser_mem_id _ _ ⟨by omega, hfit⟩]
      have hnone := find_id_none_of_lt s.rows s.nextID (fun row hrow => (hids row hrow).2)
      simp only [List.find?_append, hnone, Option.none_or]
      simp [UserInput.toRow, toUserResponse, marshalUserResponse, UserResponse.fields]
    · intro he
      rw [handleGetUser_mem_email _ _ he]
      have hnone := (find_email_none_iff s.rows u.Email).2 hfree
      simp only [List.find?_append, hnone, Option.none_or]
      simp [UserInput.toRow, toUserResponse, marshalUserResponse, UserResponse.fields]
    · intro m hm
      rw [handleGetUser_of_int memQueries (getRequest u.Email) _ m hm]
      split
      · split <;> rfl
      · rfl

/-- C3, as amended, on the empty store with the input of the spec's example:
the create answers 201 with id 1, and the gets by `1` and by `a@x.com` return
the row. -/
theorem create_then_get_witness :
    (handleCreateUser memQueries (createRequest ⟨"A", "a@x.com", "1", "T1", "Addr"⟩)
        Store.empty).resp =
      .json StatusCreated
        (.obj [("id", .num 1), ("name", .str "A"), ("email", .str "a@x.com"),
          ("phone_number", .str "1"), ("user_type", .str "T1"),
          ("address", .str "Addr")]) ∧
    (handleGetUser memQueries (getRequest "1")
        (handleCreateUser memQueries (createRequest ⟨"A", "a@x.com", "1", "T1", "Addr"⟩)
          Store.empty).store).resp =
      .json StatusOK
        (.obj [("id", .num 1), ("name", .str "A"), ("email", .str "a@x.com"),
          ("phone_number", .str "1"), ("user_type", .str "T1"),
          ("address", .str "Addr")]) ∧
    (handleGetUser memQueries (getRequest "a@x.com")
        (handleCreateUser memQueries (createRequest ⟨"A", "a@x.com", "1", "T1", "Addr"⟩)
          Store.empty).store).resp =
      .json StatusOK
        (.obj [("id", .num 1), ("name", .str "A"), ("email", .str "a@x.com"),
          ("phone_number", .str "1"), ("user_type", .str "T1"),
          ("address", .str "Addr")]) :=
  have h := create_then_get Store.empty ⟨"A", "a@x.com", "1", "T1", "Addr"⟩
    ⟨by decide, by simp [Store.empty]⟩ (by decide) (by decide)
  ⟨h.2.1, h.2.2.1, h.2.2.2.1 (by decide)⟩

/-- C3 as stated fails for an email text that is a signed 32-bit decimal. On
the empty store the input with email `42` is created with 201 and id 1, and
the get with the text `42` answers 404: it looked up the id 42. On a store
that holds the row of id 1, the input with email `1` is created with id 2, and
the get with the text `1` returns the row of id 1, another user's. -/
theorem create_then_get_numeric_email :
    (handleCreateUser memQueries (createRequest ⟨"A", "42", "1", "T1", "Addr"⟩)
        Store.empty).resp =
      .json StatusCreated
        (.obj [("id", .num 1), ("name", .str "A"), ("email", .str "42"),
          ("phone_number", .str "1"), ("user_type", .str "T1"),
          ("address", .str "Addr")]) ∧
    handleGetUser memQueries (getRequest "42")
        (handleCreateUser memQueries (createRequest ⟨"A", "42", "1", "T1", "Addr"⟩)
          Store.empty).store =
      ⟨.error (.lit "User not found") StatusNotFound,
        ⟨[⟨1, "A", "42", "1", "T1", "Addr"⟩], 2⟩, [.GetUserById 42]⟩ ∧
    (handleCreateUser memQueries (createRequest ⟨"B", "1", "2", "T1", "X"⟩)
        ⟨[⟨1, "A", "a@x.com", "1", "T1", "Addr"⟩], 2⟩).resp =
      .json StatusCreated
        (.obj [("id", .num 2), ("name", .str "B"), ("email", .str "1"),
          ("phone_number", .str "2"), ("user_type", .str "T1"),
          ("address", .str "X")]) ∧
    (handleGetUser memQueries (getRequest "1")
        (handleCreateUser memQueries (createRequest ⟨"B", "1", "2", "T1", "X"⟩)
          ⟨[⟨1, "A", "a@x.com", "1", "T1", "Addr"⟩], 2⟩).store).resp =
      .json StatusOK
        (.obj [("id", .num 1), ("name", .str "A"), ("email", .str "a@x.com"),
          ("phone_number", .str "1"), ("user_type", .str "T1"),
          ("address", .str "Addr")]) := by
  decide

theorem find_id_map_update (rows : List UserAccount) (p : UpdateUserParams)
    (h : ∃ row ∈ rows, row.ID = p.ID) :
    (rows.map (fun u => if u.ID = p.ID then p.toRow else u)).find?
      (fun u => decide (u.ID = p.ID)) = some p.toRow := by
  induction rows with
  | nil =>
    obtain ⟨row, hrow, _⟩ := h
    cases hrow
  | cons r rs ih =>
    by_cases hr : r.ID = p.ID
    · simp [List.find?_cons, hr, UpdateUserParams.toRow]
    · have hrest : ∃ row ∈ rs, row.ID = p.ID := by
        obtain ⟨row, hrow, hid⟩ := h
        rcases List.mem_cons.1 hrow with heq | hmem
        · exact absurd (heq ▸ hid) hr
        · exact ⟨row, hmem, hid⟩
      rw [List.map_cons, if_neg hr, List.find?_cons]
      have hd : decide (r.ID = p.ID) = false := decide_eq_false hr
      rw [hd]
      exact ih hrest

theorem filter_map_update (rows : List UserAccount) (p : UpdateUserParams) :
    (rows.map (fun u => if u.ID = p.ID then p.toRow else u)).filter
        (fun u => decide (u.ID ≠ p.ID)) =
      rows.filter (fun u => decide (u.ID ≠ p.ID)) := by
  induction rows with
  | nil => rfl
  | cons r rs ih =>
    by_cases hr : r.ID = p.ID
    · have h1 : decide (p.toRow.ID ≠ p.ID) = false := by simp [UpdateUserParams.toRow]
      have h2 : decide (r.ID ≠ p.ID) = false := by simp [hr]
      rw [List.map_cons, if_pos hr, List.filter_cons, List.filter_cons, h1, h2]
      exact ih
    · have h2 : decide (r.ID ≠ p.ID) = true := by simp [hr]
      rw [List.map_cons, if_neg hr, List.filter_cons, List.filter_cons, h2]
      simp only [if_true]
      rw [ih]

/-- An update by the decimal text of an `int32`, on the modelled store. -/
theorem handleUpdateUser_mem (s : Store) (n : Int) (u : UserInput)
    (hn : -2 ^ 31 ≤ n ∧ n ≤ 2 ^ 31 - 1) :
    handleUpdateUser memQueries (updateRequest (FormatInt n) u) s =
      ⟨.header StatusCreated,
        ⟨s.rows.map (fun row => if row.ID = n then u.toRow n else row), s.nextID⟩,
        [.UpdateUser ⟨n, u.Name, u.Email, u.PhoneNumber, u.UserType, u.Address⟩]⟩ := by
  have hp : ParseInt (updateRequest (FormatInt n) u).PathId 32 = .ok n := ParseInt_FormatInt n hn
  have hb : (updateRequest (FormatInt n) u).Body = .ok u := rfl
  simp only [handleUpdateUser, hp, hb, int32_of_range n hn]
  rfl

/-- C7. For every store of the contract that holds a row with id `n` and
every `UserInput`, an update request for `n` answers 201 with nothing written
after the status; a following get by id `n` answers 200 with id `n` and the
five fields of the input, whatever they are (an empty field is empty
afterwards); and the rows with other ids are the same rows, in the same
order. -/
theorem update_then_get (s : Store) (n : Int) (u : UserInput)
    (hn : -2 ^ 31 ≤ n ∧ n ≤ 2 ^ 31 - 1) (hrow : ∃ row ∈ s.rows, row.ID = n) :
    (handleUpdateUser memQueries (updateRequest (FormatInt n) u) s).resp =
        .header StatusCreated ∧
      (handleUpdateUser memQueries (updateRequest (FormatInt n) u) s).resp.hasBody = false ∧
      (handleGetUser memQueries (getRequest (FormatInt n))
          (handleUpdateUser memQueries (updateRequest (FormatInt n) u) s).store).resp =
        .json StatusOK
          (.obj [("id", .num n), ("name", .str u.Name), ("email", .str u.Email),
            ("phone_number", .str u.PhoneNumber), ("user_type", .str u.UserType),
            ("address", .str u.Address)]) ∧
      (handleUpdateUser memQueries (updateRequest (FormatInt n) u) s).store.rows.filter
          (fun row => decide (row.ID ≠ n)) =
        s.rows.filter (fun row => decide (row.ID ≠ n)) ∧
      (handleUpdateUser memQueries (updateRequest (FormatInt n) u) s).store.rows.length =
        s.rows.length := by
  rw [handleUpdateUser_mem s n u hn]
  refine ⟨rfl, rfl, ?_, ?_, ?_⟩
  · rw [handleGetUser_mem_id _ _ hn]
    have := find_id_map_update s.rows ⟨n, u.Name, u.Email, u.PhoneNumber, u.UserType, u.Address⟩
      hrow
    simp only [UpdateUserParams.toRow] at this
    simp only [UserInput.toRow, this]
    rfl
  · exact filter_map_update s.rows ⟨n, u.Name, u.Email, u.PhoneNumber, u.UserType, u.Address⟩
  · simp

/-- C7, on a store with the rows of ids 1 and 2: the update of id 2 with an
input whose phone number is empty answers 201, the get by `2` returns the
input's fields with the empty phone number, and the row of id 1 stays. -/
theorem update_then_get_witness :
    (handleUpdateUser memQueries (updateRequest "2" ⟨"C", "c@x.com", "", "T2", "Y"⟩)
        ⟨[⟨1, "A", "a@x.com", "1", "T1", "Addr"⟩, ⟨2, "B", "b@x.com", "2", "T1", "X"⟩], 3⟩).resp =
      .header StatusCreated ∧
    (handleGetUser memQueries (getRequest "2")
        (handleUpdateUser memQueries (updateRequest "2" ⟨"C", "c@x.com", "", "T2", "Y"⟩)
          ⟨[⟨1, "A", "a@x.com", "1", "T1", "Addr"⟩, ⟨2, "B", "b@x.com", "2", "T1", "X"⟩],
            3⟩).store).resp =
      .json StatusOK
        (.obj [("id", .num 2), ("name", .str "C"), ("email", .str "c@x.com"),
          ("phone_number", .str ""), ("user_type", .str "T2"),
          ("address", .str "Y")]) :=
  have h := update_then_get
    ⟨[⟨1, "A", "a@x.com", "1", "T1", "Addr"⟩, ⟨2, "B", "b@x.com", "2", "T1", "X"⟩], 3⟩ 2
    ⟨"C", "c@x.com", "", "T2", "Y"⟩ (by decide) (by decide)
  ⟨h.1, h.2.2.1⟩

/-- A delete by the decimal text of an `int32`, on the modelled store. -/
theorem handleDeleteUser_mem (s : Store) (n : Int) (hn : -2 ^ 31 ≤ n ∧ n ≤ 2 ^ 31 - 1) :
    handleDeleteUser memQueries (deleteRequest (FormatInt n)) s =
      ⟨.header StatusNoContent, ⟨s.rows.filter (fun row => decide (row.ID ≠ n)), s.nextID⟩,
        [.DeleteUser n]⟩ := by
  have hp : ParseInt (deleteRequest (FormatInt n)).PathId 32 = .ok n := ParseInt_FormatInt n hn
  simp only [handleDeleteUser, hp, int32_of_range n hn]
  rfl

/-- C8. For every store of the contract that holds a row with id `n`, a
delete request for `n` answers 204 with nothing written after the status, and
a following get with the decimal text of `n` answers 404; the rows left are
the rows with other ids, unchanged and in the same order, and the store has
lost at least the one row. -/
theorem delete_then_get (s : Store) (n : Int)
    (hn : -2 ^ 31 ≤ n ∧ n ≤ 2 ^ 31 - 1) (hrow : ∃ row ∈ s.rows, row.ID = n) :
    (handleDeleteUser memQueries (deleteRequest (FormatInt n)) s).resp =
        .header StatusNoContent ∧
      (handleDeleteUser memQueries (deleteRequest (FormatInt n)) s).resp.hasBody = false ∧
      (handleGetUser memQueries (getRequest (FormatInt n))
          (handleDeleteUser memQueries (deleteRequest (FormatInt n)) s).store).resp =
        .error (.lit "User not found") StatusNotFound ∧
      (handleDeleteUser memQueries (deleteRequest (FormatInt n)) s).store.rows =
        s.rows.filter (fun row => decide (row.ID ≠ n)) ∧
      (handleDeleteUser memQueries (deleteRequest (FormatInt n)) s).store.rows.length <
        s.rows.length := by
  rw [handleDeleteUser_mem s n hn]
  refine ⟨rfl, rfl, ?_, rfl, ?_⟩
  · rw [handleGetUser_mem_id _ _ hn]
    have hnone : (s.rows.filter (fun row => decide (row.ID ≠ n))).find?
        (fun u => decide (u.ID = n)) = none := by
      rw [List.find?_eq_none]
      intro u hu
      have := (List.mem_filter.1 hu).2
      simpa using this
    simp only [hnone]
  · obtain ⟨row, hmem, hid⟩ := hrow
    apply List.length_filter_lt_length_iff_exists.2
    exact ⟨row, hmem, by simp [hid]⟩

/-- C8, on a store with the rows of ids 1 and 2: the delete of id 2 answers
204, the get by `2` then answers 404, and the row of id 1 is what is left. -/
theorem delete_then_get_witness :
    (handleDeleteUser memQueries (deleteRequest "2")
        ⟨[⟨1, "A", "a@x.com", "1", "T1", "Addr"⟩, ⟨2, "B", "b@x.com", "2", "T1", "X"⟩], 3⟩).resp =
      .header StatusNoContent ∧
    (handleGetUser memQueries (getRequest "2")
        (handleDeleteUser memQueries (deleteRequest "2")
          ⟨[⟨1, "A", "a@x.com", "1", "T1", "Addr"⟩, ⟨2, "B", "b@x.com", "2", "T1", "X"⟩],
            3⟩).store).resp =
      .error (.lit "User not found") StatusNotFound ∧
    (handleDeleteUser memQueries (deleteRequest "2")
        ⟨[⟨1, "A", "a@x.com", "1", "T1", "Addr"⟩, ⟨2, "B", "b@x.com", "2", "T1", "X"⟩],
          3⟩).store.rows =
      [⟨1, "A", "a@x.com", "1", "T1", "Addr"⟩] :=
  have h := delete_then_get
    ⟨[⟨1, "A", "a@x.com", "1", "T1", "Addr"⟩, ⟨2, "B", "b@x.com", "2", "T1", "X"⟩], 3⟩ 2
    (by decide) (by decide)
  ⟨h.1, h.2.2.1, h.2.2.2.1⟩

/-! ## Sequences of creates, then list -/

/-- Creates with pairwise distinct emails, none of them in the store, all
succeed on the modelled store and append their rows. -/
theorem runCreates_mem (us : List UserInput) (s : Store)
    (hnew : ∀ u ∈ us, ∀ row ∈ s.rows, row.Email ≠ u.Email)
    (hdistinct : (us.map (fun u => u.Email)).Nodup) :
    runCreates memQueries us s =
      ((createdFrom s.nextID us).map
          (fun row => Response.json StatusCreated (marshalUserResponse (toUserResponse row))),
        ⟨s.rows ++ createdFrom s.nextID us, s.nextID + us.length⟩) := by
  induction us generalizing s with
  | nil => simp [runCreates, createdFrom]
  | cons u us ih =>
    have hfree : ¬ ∃ row ∈ s.rows, row.Email = u.Email := by
      rintro ⟨row, hrow, he⟩
      exact hnew u (List.mem_cons_self _ _) row hrow he
    rw [List.map_cons, List.nodup_cons] at hdistinct
    obtain ⟨hhead, htail⟩ := hdistinct
    have hnew1 : ∀ v ∈ us, ∀ row ∈ s.rows ++ [u.toRow s.nextID], row.Email ≠ v.Email := by
      intro v hv row hrow
      rcases List.mem_append.1 hrow with h | h
      · exact hnew v (List.mem_cons_of_mem _ hv) row h
      · rw [List.mem_singleton] at h
        subst h
        intro he
        exact hhead (List.mem_map.2 ⟨v, hv, he.symm⟩)
    have step := ih ⟨s.rows ++ [u.toRow s.nextID], s.nextID + 1⟩ hnew1 htail
    simp only [runCreates, handleCreateUser_mem, if_neg hfree, step, createdFrom,
      List.map_cons, List.append_assoc, List.singleton_append, List.length_cons,
      Prod.mk.injEq, Store.mk.injEq, true_and, and_true]
    push_cast
    omega

theorem createdFrom_enumFrom (k : Nat) (us : List UserInput) :
    createdFrom ((k : Int) + 1) us =
      (us.enumFrom k).map (fun p => p.2.toRow ((p.1 : Int) + 1)) := by
  induction us generalizing k with
  | nil => rfl
  | cons u us ih =>
    have h := ih (k + 1)
    push_cast at h
    simp only [createdFrom, List.enumFrom_cons, List.map_cons, h]

/-- C10. For every finite sequence of create requests with pairwise distinct
emails, handled one after the other from the empty store of the contract:
every create answers 201, the body of the create at position `i` (from 0)
being the object with the id `i + 1` and the five submitted fields under their
JSON keys; a following list answers 200 with the array of exactly those
objects, in the order of the creates, none missing and none extra; so the
array is as long as the sequence of creates. -/
theorem creates_then_list (us : List UserInput)
    (hdistinct : (us.map (fun u => u.Email)).Nodup) :
    (runCreates memQueries us Store.empty).1 =
        us.enum.map (fun p => Response.json StatusCreated
          (.obj [("id", .num ((p.1 : Int) + 1)), ("name", .str p.2.Name), ("email", .str p.2.Email),
              ("phone_number", .str p.2.PhoneNumber), ("user_type", .str p.2.UserType),
              ("address", .str p.2.Address)])) ∧
      (∀ resp ∈ (runCreates memQueries us Store.empty).1, resp.status = StatusCreated) ∧
      (handleGetAllUsers memQueries listRequest (runCreates memQueries us Store.empty).2).resp =
        .json StatusOK (.arr (us.enum.map (fun p =>
          [("id", .num ((p.1 : Int) + 1)), ("name", .str p.2.Name), ("email", .str p.2.Email),
            ("phone_number", .str p.2.PhoneNumber), ("user_type", .str p.2.UserType),
            ("address", .str p.2.Address)]))) ∧
      (us.enum.map (fun p =>
          ([("id", .num ((p.1 : Int) + 1)), ("name", .str p.2.Name), ("email", .str p.2.Email),
            ("phone_number", .str p.2.PhoneNumber), ("user_type", .str p.2.UserType),
            ("address", .str p.2.Address)] : JsonObject))).length =
        us.length := by
  have hrun := runCreates_mem us Store.empty (by simp [Store.empty]) hdistinct
  have hnext : Store.empty.nextID = ((0 : Nat) : Int) + 1 := rfl
  have hrows : Store.empty.rows = [] := rfl
  rw [hnext, hrows, List.nil_append, createdFrom_enumFrom 0 us] at hrun
  have henum : us.enumFrom 0 = us.enum := rfl
  rw [henum] at hrun
  rw [hrun]
  refine ⟨?_, ?_, ?_, ?_⟩
  · rw [List.map_map]
    rfl
  · intro resp hresp
    obtain ⟨row, _, hrow⟩ := List.mem_map.1 hresp
    rw [← hrow]
    rfl
  · have hlist : memQueries.ListUsers
        ⟨us.enum.map (fun p => p.2.toRow ((p.1 : Int) + 1)),
          ((0 : Nat) : Int) + 1 + (us.length : Int)⟩ =
        .ok (if us.enum.map (fun p => p.2.toRow ((p.1 : Int) + 1)) = [] then .nil
          else .mk (us.enum.map (fun p => p.2.toRow ((p.1 : Int) + 1)))) := rfl
    rw [handleGetAllUsers_ok memQueries listRequest _ _ hlist]
    by_cases hempty : us.enum.map (fun p => p.2.toRow ((p.1 : Int) + 1)) = []
    · rw [if_pos hempty]
      have hus : us.enum = [] := List.map_eq_nil_iff.1 hempty
      rw [hus]
      rfl
    · rw [if_neg hempty]
      simp only [GoSlice.toList, List.map_map]
      rfl
  · rw [List.length_map, List.enum_length]

/-- C10, for three creates with distinct emails: the three answers are 201
with ids 1, 2 and 3 and the submitted fields, and the list is the array of
those three objects. -/
theorem creates_then_list_witness :
    (runCreates memQueries
        [⟨"A", "a@x.com", "1", "T1", "Addr"⟩, ⟨"B", "b@x.com", "2", "T1", "X"⟩,
          ⟨"C", "c@x.com", "3", "T2", "Y"⟩] Store.empty).1 =
      [.json StatusCreated
          (.obj [("id", .num 1), ("name", .str "A"), ("email", .str "a@x.com"),
              ("phone_number", .str "1"), ("user_type", .str "T1"),
              ("address", .str "Addr")]),
        .json StatusCreated
          (.obj [("id", .num 2), ("name", .str "B"), ("email", .str "b@x.com"),
              ("phone_number", .str "2"), ("user_type", .str "T1"),
              ("address", .str "X")]),
        .json StatusCreated
          (.obj [("id", .num 3), ("name", .str "C"), ("email", .str "c@x.com"),
              ("phone_number", .str "3"), ("user_type", .str "T2"),
              ("address", .str "Y")])] ∧
    (handleGetAllUsers memQueries listRequest
        (runCreates memQueries
          [⟨"A", "a@x.com", "1", "T1", "Addr"⟩, ⟨"B", "b@x.com", "2", "T1", "X"⟩,
            ⟨"C", "c@x.com", "3", "T2", "Y"⟩] Store.empty).2).resp =
      .json StatusOK (.arr
        [[("id", .num 1), ("name", .str "A"), ("email", .str "a@x.com"),
            ("phone_number", .str "1"), ("user_type", .str "T1"),
            ("address", .str "Addr")],
          [("id", .num 2), ("name", .str "B"), ("email", .str "b@x.com"),
            ("phone_number", .str "2"), ("user_type", .str "T1"),
            ("address", .str "X")],
          [("id", .num 3), ("name", .str "C"), ("email", .str "c@x.com"),
            ("phone_number", .str "3"), ("user_type", .str "T2"),
            ("address", .str "Y")]]) :=
  have h := creates_then_list
    [⟨"A", "a@x.com", "1", "T1", "Addr"⟩, ⟨"B", "b@x.com", "2", "T1", "X"⟩,
      ⟨"C", "c@x.com", "3", "T2", "Y"⟩] (by decide)
  ⟨h.1, h.2.2.1⟩

end GoRest
